import Mathlib

/-!
Shallow embedding of the `equipment-rental` automation (files `equipment_rental.js`
and `app.js`).  The embedding covers:

* the relevance selector `findRelevantRentalRecord`,
* the per-item cost calculation of `_handleOnHold`,
* the aggregate cost and asset propagation of `_handleShipmentPreparation`,
* the field clearing of `_handleAssetComponentUpdate`,
* the dispatcher `processRecordUpdate`, and
* the record updater `_updateRecord` with its undefined-dropping behaviour.

Modelling conventions:

* JavaScript numbers are modelled over `ℚ` (real-number semantics of the
  arithmetic the code performs; machine floats are abstracted).
* A `Date` parse outcome is modelled as `Option Int` (milliseconds since epoch;
  `none` stands for an invalid date, i.e. `NaN` from `new Date(...)`), since JS
  date-string parsing is implementation defined.
* `parseFloat` is modelled concretely on decimal numerals (optional sign,
  integer and fraction digits, longest-prefix semantics); `none` stands for
  `NaN`.
* Remote I/O is modelled by an explicit environment `Env` recording what each
  read returns and whether each write succeeds; a handler's effect is the list
  of PATCH calls it performs, in order, together with an optional raised error.
  Sequential `await`-chaining is modelled by list order: a failed write stops
  the run, leaving earlier writes performed (no rollback).
* `JSON.parse` of the serialized equipment list is abstracted as its outcome:
  `none` = attribute missing/empty, `some none` = parse failure,
  `some (some items)` = parsed array of items.
-/

namespace EquipmentRental

/-- One millisecond day, `MS_PER_DAY = 1000 * 60 * 60 * 24` from `_handleOnHold`. -/
def msPerDay : ℚ := 1000 * 60 * 60 * 24

/-- JavaScript `Math.round`: round half towards positive infinity. -/
def jsRound (q : ℚ) : Int := Rat.floor (q + 1 / 2)

/-- Numeric value of a list of decimal digit characters. -/
def digitsToNat (ds : List Char) : Nat :=
  ds.foldl (fun a c => a * 10 + (c.toNat - '0'.toNat)) 0

/-- Model of JavaScript `parseFloat` on decimal numerals: skip leading
whitespace, optional sign, digits with an optional fractional part, ignore any
trailing characters; `none` models `NaN` (no numeric prefix at all). -/
def parseFloatQ (s : String) : Option ℚ :=
  let cs := s.data.dropWhile Char.isWhitespace
  let signed : Bool × List Char :=
    match cs with
    | '-' :: rest => (true, rest)
    | '+' :: rest => (false, rest)
    | _ => (false, cs)
  let intPart := signed.2.takeWhile Char.isDigit
  let afterInt := signed.2.dropWhile Char.isDigit
  let fracPart :=
    match afterInt with
    | '.' :: rest => rest.takeWhile Char.isDigit
    | _ => []
  if intPart.isEmpty && fracPart.isEmpty then none
  else
    let mag : ℚ := (digitsToNat intPart : ℚ) + (digitsToNat fracPart : ℚ) / (10 : ℚ) ^ fracPart.length
    some (if signed.1 then -mag else mag)

/-- The `parseFloat(x) || 0` idiom: a missing field (`parseFloat(undefined)`)
or a non-numeric one (`NaN`) coerces to `0`. -/
def parsedOr0 (o : Option String) : ℚ :=
  match o with
  | none => 0
  | some s => (parseFloatQ s).getD 0

/-- Two-digit zero-padded rendering of a fractional part below 100. -/
def natTwoDigits (n : Nat) : String :=
  if n < 10 then "0" ++ toString n else toString n

/-- `toFixed(2)` on a non-negative number: the nearest hundredth, ties rounded
up, rendered with exactly two decimal places. -/
def toFixed2Abs (q : ℚ) : String :=
  let n : Nat := (Rat.floor (q * 100 + 1 / 2)).toNat
  toString (n / 100) ++ "." ++ natTwoDigits (n % 100)

/-- JavaScript `Number.prototype.toFixed(2)`: the sign is split off first, so
ties round away from zero. -/
def toFixed2 (q : ℚ) : String :=
  if q < 0 then "-" ++ toFixed2Abs (-q) else toFixed2Abs q

/-- The `values` object of one equipment line item.  Dates are stored as their
`new Date(...)` parse outcome, numeric raw fields as their raw string
(`none` = field absent). -/
structure ItemValues where
  cf_rental_period_start : Option Int
  cf_rental_period_end : Option Int
  cf_quantity_rental : Option String
  cf_daily_rental_price : Option String
  cf_weekly_rental_price : Option String
  cf_monthly_rental_price : Option String
  cf_total_cost : Option String
deriving DecidableEq, Repr

/-- One entry of the parsed equipment list.  `values = none` models an item
object that lacks a `values` property (accessing a field of it throws). -/
structure Item where
  values : Option ItemValues
deriving DecidableEq, Repr

/-- The per-item body of the `for` loop of `_handleOnHold`: skip the item on an
invalid date or non-positive duration, otherwise pick the rate tier and write
the formatted cost into `cf_total_cost`. -/
def processItemValues (values : ItemValues) : ItemValues :=
  match values.cf_rental_period_start, values.cf_rental_period_end with
  | some startDate, some endDate =>
    let durationDays : Int := jsRound (((endDate - startDate : Int) : ℚ) / msPerDay) + 1
    if durationDays ≤ 0 then values
    else
      let quantity := parsedOr0 values.cf_quantity_rental
      let dailyRate := parsedOr0 values.cf_daily_rental_price
      let weeklyRate := parsedOr0 values.cf_weekly_rental_price
      let monthlyRate := parsedOr0 values.cf_monthly_rental_price
      let totalCost : ℚ :=
        if monthlyRate > 0 ∧ durationDays ≥ 28 then (durationDays : ℚ) / 30 * monthlyRate * quantity
        else if weeklyRate > 0 ∧ durationDays ≥ 7 then (durationDays : ℚ) / 7 * weeklyRate * quantity
        else if dailyRate > 0 then (durationDays : ℚ) * dailyRate * quantity
        else 0
      { values with cf_total_cost := some (toFixed2 totalCost) }
  | _, _ => values

/-- Reference definition, following the spec: `durationDays = round((end -
start) / 1 day) + 1`, inclusive of both endpoints. -/
def specDurationDays (s e : Int) : Int :=
  jsRound (((e - s : Int) : ℚ) / msPerDay) + 1

/-- Reference definition, following the spec's rate-tier selection in strict
priority order: monthly when `monthlyRate > 0` and `durationDays >= 28`, else
weekly when `weeklyRate > 0` and `durationDays >= 7`, else daily when
`dailyRate > 0`, else `0`. -/
def specTierCost (durationDays : Int) (quantity dailyRate weeklyRate monthlyRate : ℚ) : ℚ :=
  if monthlyRate > 0 ∧ durationDays ≥ 28 then (durationDays : ℚ) / 30 * monthlyRate * quantity
  else if weeklyRate > 0 ∧ durationDays ≥ 7 then (durationDays : ℚ) / 7 * weeklyRate * quantity
  else if dailyRate > 0 then (durationDays : ℚ) * dailyRate * quantity
  else 0

/-- Reference per-item update, following the spec: if either date is invalid or
`durationDays <= 0` the item is skipped with its cost field untouched,
otherwise its cost becomes the tier cost formatted to two decimal places, with
missing or non-numeric quantity and rate fields coerced to `0`. -/
def specItemUpdate (item : ItemValues) : ItemValues :=
  match item.cf_rental_period_start, item.cf_rental_period_end with
  | some s, some e =>
    let d := specDurationDays s e
    if d ≤ 0 then item
    else
      { item with
        cf_total_cost := some (toFixed2 (specTierCost d
          (parsedOr0 item.cf_quantity_rental)
          (parsedOr0 item.cf_daily_rental_price)
          (parsedOr0 item.cf_weekly_rental_price)
          (parsedOr0 item.cf_monthly_rental_price))) }
  | _, _ => item

/-- A raw candidate row from the child-record search, as consumed by
`findRelevantRentalRecord`.  A date attribute is modelled by its lookup and
parse outcome: `none` = attribute missing or falsy (the `? :` guard yields
`null`), `some none` = present but `new Date(...)` gives `NaN`,
`some (some t)` = valid date with time value `t`. -/
structure RawCandidate (α : Type) where
  id : Nat
  attributes : α
  startRaw : Option (Option Int)
  endRaw : Option (Option Int)
deriving DecidableEq, Repr

/-- A candidate that survived the valid-date filter of
`findRelevantRentalRecord`, carrying its parsed dates. -/
structure DatedRecord (α : Type) where
  id : Nat
  attributes : α
  startDate : Int
  endDate : Int
deriving DecidableEq, Repr

/-- Whether a candidate has both dates present and parseable. -/
def hasValidDates {α : Type} (r : RawCandidate α) : Bool :=
  match r.startRaw, r.endRaw with
  | some (some _), some (some _) => true
  | _, _ => false

/-- The map step of `findRelevantRentalRecord` fused with its valid-date
filter: a candidate survives exactly when both dates are present and parse. -/
def parseDated {α : Type} (r : RawCandidate α) : Option (DatedRecord α) :=
  match r.startRaw, r.endRaw with
  | some (some s), some (some e) => some ⟨r.id, r.attributes, s, e⟩
  | _, _ => none

/-- `potentialRecords` of `findRelevantRentalRecord`: candidates with valid,
present start and end dates. -/
def potentialRecords {α : Type} (rs : List (RawCandidate α)) : List (DatedRecord α) :=
  rs.filterMap parseDated

/-- `activeRecords`: `startDate <= now && endDate >= now`. -/
def activeRecords {α : Type} (rs : List (RawCandidate α)) (now : Int) : List (DatedRecord α) :=
  (potentialRecords rs).filter (fun r => decide (r.startDate ≤ now ∧ r.endDate ≥ now))

/-- `futureRecords`: `startDate > now && endDate >= now`. -/
def futureRecords {α : Type} (rs : List (RawCandidate α)) (now : Int) : List (DatedRecord α) :=
  (potentialRecords rs).filter (fun r => decide (r.startDate > now ∧ r.endDate ≥ now))

/-- The order induced by the active-records comparator
`(a, b) => b.start - a.start, ties b.end - a.end`: `a` may come before `b`
exactly when the comparator is non-positive. -/
def activeOrder {α : Type} (a b : DatedRecord α) : Prop :=
  if b.startDate = a.startDate then b.endDate ≤ a.endDate else b.startDate ≤ a.startDate

instance {α : Type} : DecidableRel (activeOrder (α := α)) := fun a b => by
  unfold activeOrder
  infer_instance

instance {α : Type} : IsTotal (DatedRecord α) activeOrder := by
  constructor
  intro a b
  unfold activeOrder
  split_ifs <;> omega

instance {α : Type} : IsTrans (DatedRecord α) activeOrder := by
  constructor
  intro a b c hab hbc
  unfold activeOrder at *
  split_ifs at * <;> omega

/-- The order induced by the future-records comparator
`(a, b) => a.start - b.start`. -/
def futureOrder {α : Type} (a b : DatedRecord α) : Prop :=
  a.startDate ≤ b.startDate

instance {α : Type} : DecidableRel (futureOrder (α := α)) := fun a b => by
  unfold futureOrder
  infer_instance

instance {α : Type} : IsTotal (DatedRecord α) futureOrder :=
  ⟨fun a b => Int.le_total a.startDate b.startDate⟩

instance {α : Type} : IsTrans (DatedRecord α) futureOrder :=
  ⟨fun _ _ _ hab hbc => le_trans hab hbc⟩

/-- `findRelevantRentalRecord(recordsData)` with `now` passed explicitly:
filter to valid dates, prefer the active record that started most recently
(ties: later end date), else the future record starting soonest, else `null`.
The stable JavaScript `Array.prototype.sort` followed by `[0]` is modelled by
`List.insertionSort` (stable) followed by `head?`; the chosen record's
`attributes` are returned. -/
def findRelevantRentalRecord {α : Type} (rs : List (RawCandidate α)) (now : Int) : Option α :=
  if rs.isEmpty then none
  else
    let active := activeRecords rs now
    let future := futureRecords rs now
    if !active.isEmpty then
      (List.insertionSort activeOrder active).head?.map DatedRecord.attributes
    else if !future.isEmpty then
      (List.insertionSort futureOrder future).head?.map DatedRecord.attributes
    else none

/-- JavaScript attribute values as they appear in update patches: `undefined`,
`null`, strings, or numbers. -/
inductive JsValue where
  | undefined
  | null
  | str (s : String)
  | num (q : ℚ)
deriving DecidableEq, Repr

/-- Reading an optional string field as a patch value (`undefined` when the
field is absent). -/
def jsOfOptStr : Option String → JsValue
  | none => JsValue.undefined
  | some s => JsValue.str s

/-- The relationship ids of a record: `relationships?.type?.data?.id` and
`relationships?.status?.data?.id`, `none` when any link of the optional chain
is missing. -/
structure Relationships where
  typeId : Option String
  statusId : Option String
deriving DecidableEq, Repr

/-- The attributes of the triggering record that the handlers consult.
`cf_list_equipment_to_be` is the serialized equipment list, abstracted as its
outcome: `none` = missing/empty, `some none` = `JSON.parse` failure,
`some (some items)` = parsed array.  `cf_available_equipment` is `none` when
missing or not an array. -/
structure Attributes where
  pkey : Option String
  cf_list_equipment_to_be : Option (Option (List Item))
  cf_available_equipment : Option (List String)
  cf_rental_period_start : JsValue
  cf_rental_period_end : JsValue
  cf_client_project_name : JsValue
  cf_address_line1 : JsValue
  cf_address_line2 : JsValue
  cf_address_city : JsValue
  cf_address_state : JsValue
  cf_address_zip : JsValue
  cf_address_country : JsValue
deriving DecidableEq, Repr

/-- A record as returned by `_getRecordData`. -/
structure RecordData where
  id : String
  attributes : Attributes
  relationships : Relationships
deriving DecidableEq, Repr

/-- One `PATCH /records/{target}` call issued through `_updateRecord`. -/
structure UpdateCall where
  target : String
  attrs : List (String × JsValue)
deriving DecidableEq, Repr

/-- The remote store as seen by one run: what the reads return (`none` models
a non-success HTTP status or an unusable body) and, per target id, whether a
write fails and with which response body. -/
structure Env where
  recordData : Option RecordData
  typeNameOf : String → Option String
  stepTextOf : String → Option String
  writeError : String → Option String

/-- The undefined-dropping step applied to an attributes patch before it is
sent: the explicit `Object.entries(...).filter(([_, value]) => value !==
undefined)` of `processRentalAndUpdateParent`, and equally `JSON.stringify`'s
omission of `undefined`-valued properties in `_updateRecord`.  Explicit `null`
values are kept. -/
def filterUndefinedEntries (attrs : List (String × JsValue)) : List (String × JsValue) :=
  attrs.filter (fun kv => decide (kv.2 ≠ JsValue.undefined))

/-- The attribute entries of a patch as they reach the remote store through
`_updateRecord`'s serialized request body. -/
def sentBody (c : UpdateCall) : List (String × JsValue) :=
  filterUndefinedEntries c.attrs

/-- Sequentially awaited `_updateRecord` calls: perform each write in order;
a non-success write raises `Update failed: <body>` and stops, leaving the
earlier writes performed (no rollback). -/
def runUpdates (env : Env) : List UpdateCall → List UpdateCall × Option String
  | [] => ([], none)
  | c :: rest =>
    match env.writeError c.target with
    | some body => ([], some ("Update failed: " ++ body))
    | none =>
      let r := runUpdates env rest
      (c :: r.1, r.2)

/-- The error raised by reading a property of `undefined` (an item without a
`values` object). -/
def typeErrorUndefined : String := "TypeError: Cannot read properties of undefined"

/-- The `for` loop of `_handleOnHold` over the parsed equipment list: items are
processed in order, and an item lacking a `values` object raises. -/
def computeOnHoldItems : List Item → Except String (List Item)
  | [] => Except.ok []
  | it :: rest =>
    match it.values with
    | none => Except.error typeErrorUndefined
    | some v =>
      match computeOnHoldItems rest with
      | Except.error e => Except.error e
      | Except.ok tail => Except.ok ({ values := some (processItemValues v) } :: tail)

/-- `JSON.stringify` of the mutated equipment list, modelled by an injective
rendering of the typed item list. -/
def serializeItems (items : List Item) : String := reprStr items

/-- One step of the `reduce` of `_handleShipmentPreparation`:
`sum + (parseFloat(item.values.cf_total_cost) || 0)`; an item lacking a
`values` object raises. -/
def sumStep (sum : ℚ) (it : Item) : Except String ℚ :=
  match it.values with
  | none => Except.error typeErrorUndefined
  | some v => Except.ok (sum + parsedOr0 v.cf_total_cost)

/-- The `reduce` of `_handleShipmentPreparation`: left fold of `sumStep`
starting from `0`. -/
def overallTotalCost (items : List Item) : Except String ℚ :=
  items.foldlM sumStep (0 : ℚ)

/-- `_handleOnHold`: nothing to do without a (parseable) equipment list;
otherwise recompute every line-item cost and write the re-serialized list back
in a single update of `cf_list_equipment_to_be`. -/
def handleOnHold (env : Env) (rec : RecordData) : List UpdateCall × Option String :=
  match rec.attributes.cf_list_equipment_to_be with
  | none => ([], none)
  | some none => ([], none)
  | some (some equipmentList) =>
    match computeOnHoldItems equipmentList with
    | Except.error e => ([], some e)
    | Except.ok newItems =>
      runUpdates env
        [⟨rec.id, [("cf_list_equipment_to_be", JsValue.str (serializeItems newItems))]⟩]

/-- The fixed rental/address/client bundle propagated to each associated
asset, including the `cf_equipment_rental_record` back-reference (the rental's
`pkey`). -/
def shipmentPayload (rec : RecordData) : List (String × JsValue) :=
  [("cf_rental_period_start", rec.attributes.cf_rental_period_start),
   ("cf_rental_period_end", rec.attributes.cf_rental_period_end),
   ("cf_client_name", rec.attributes.cf_client_project_name),
   ("cf_equipment_rental_record", jsOfOptStr rec.attributes.pkey),
   ("cf_address_line1", rec.attributes.cf_address_line1),
   ("cf_address_line2", rec.attributes.cf_address_line2),
   ("cf_address_city", rec.attributes.cf_address_city),
   ("cf_address_state", rec.attributes.cf_address_state),
   ("cf_address_zip", rec.attributes.cf_address_zip),
   ("cf_address_country", rec.attributes.cf_address_country)]

/-- `_handleShipmentPreparation`: compute the overall total, write it to the
rental record, then update every associated asset in the declaration order of
`cf_available_equipment` (none when the attribute is missing, not an array, or
empty). -/
def handleShipmentPreparation (env : Env) (rec : RecordData) : List UpdateCall × Option String :=
  match rec.attributes.cf_list_equipment_to_be with
  | none => ([], none)
  | some none => ([], none)
  | some (some equipmentList) =>
    match overallTotalCost equipmentList with
    | Except.error e => ([], some e)
    | Except.ok total =>
      let mainCall : UpdateCall :=
        ⟨rec.id, [("cf_total_equipment_rental_cost", JsValue.str (toFixed2 total))]⟩
      let assetIds := rec.attributes.cf_available_equipment.getD []
      runUpdates env (mainCall :: assetIds.map (fun assetId => ⟨assetId, shipmentPayload rec⟩))

/-- The `clearPayload` of `_handleAssetComponentUpdate`: every rental/address
field of the bundle set to `null`. -/
def clearPayload : List (String × JsValue) :=
  [("cf_rental_period_start", JsValue.null),
   ("cf_rental_period_end", JsValue.null),
   ("cf_client_name", JsValue.null),
   ("cf_equipment_rental_record", JsValue.null),
   ("cf_address_line1", JsValue.null),
   ("cf_address_line2", JsValue.null),
   ("cf_address_city", JsValue.null),
   ("cf_address_state", JsValue.null),
   ("cf_address_zip", JsValue.null),
   ("cf_address_country", JsValue.null)]

/-- `_handleAssetComponentUpdate`: one update clearing the rental fields. -/
def handleAssetComponentUpdate (env : Env) (recordId : String) : List UpdateCall × Option String :=
  runUpdates env [⟨recordId, clearPayload⟩]

/-- Whether a character list begins with the given pattern. -/
def listStartsWith : List Char → List Char → Bool
  | _, [] => true
  | [], _ :: _ => false
  | c :: cs, p :: ps => c == p && listStartsWith cs ps

/-- Whether the pattern occurs somewhere in the character list. -/
def listHasSub (pat : List Char) : List Char → Bool
  | [] => listStartsWith [] pat
  | c :: cs => listStartsWith (c :: cs) pat || listHasSub pat cs

/-- JavaScript `String.prototype.includes`, used for the `pkey.includes("RENT")`
guard. -/
def strContains (s pat : String) : Bool := listHasSub pat.data s.data

/-- `processRecordUpdate`: fetch the record (silently abort on read failure),
resolve the type name, route Asset/Component records to field clearing, and
route Equipment Rental records - when `pkey` and the status id are present,
`pkey` is truthy and contains `"RENT"` - by workflow-step text to the On Hold
or Shipment Preparation handler; anything else is a no-op. -/
def processRecordUpdate (env : Env) (recordId : String) : List UpdateCall × Option String :=
  match env.recordData with
  | none => ([], none)
  | some rec =>
    match rec.relationships.typeId with
    | none => ([], none)
    | some typeId =>
      match env.typeNameOf typeId with
      | none => ([], none)
      | some typeName =>
        if typeName = "Asset Record" ∨ typeName = "Component Record" then
          handleAssetComponentUpdate env recordId
        else if typeName = "Equipment Rental" then
          match rec.attributes.pkey, rec.relationships.statusId with
          | some pkey, some statusId =>
            if pkey = "" then ([], none)
            else
              let workflowStepText := env.stepTextOf statusId
              if !strContains pkey "RENT" then ([], none)
              else
                match workflowStepText with
                | some "Equipment On Hold" => handleOnHold env rec
                | some "Shipment Preparation" => handleShipmentPreparation env rec
                | _ => ([], none)
          | _, _ => ([], none)
        else ([], none)

/-- Reference aggregate, following the spec: the sum of all items' stored cost
fields re-parsed as numbers, non-numeric treated as `0`. -/
def specAggregateCost (items : List Item) : ℚ :=
  ((items.filterMap Item.values).map (fun v => parsedOr0 v.cf_total_cost)).sum

/-! Concrete sample data used to instantiate the theorems below on closed
inputs. -/

/-- Sample candidates with two active records (ids 1 and 2), a future record
(id 3) and an invalid-dated record (id 4); `attributes` is a plain marker. -/
def sampleCandsActive : List (RawCandidate Nat) :=
  [⟨1, 11, some (some 50), some (some 150)⟩,
   ⟨2, 22, some (some 80), some (some 120)⟩,
   ⟨3, 33, some (some 120), some (some 130)⟩,
   ⟨4, 44, none, some (some 10)⟩]

/-- Sample candidates that are all future at time 100. -/
def sampleCandsFuture : List (RawCandidate Nat) :=
  [⟨1, 11, some (some 120), some (some 130)⟩,
   ⟨2, 22, some (some 110), some (some 115)⟩]

/-- A sample candidate list that is entirely in the past at time 100. -/
def sampleCandsPast : List (RawCandidate Nat) :=
  [⟨1, 11, some (some 10), some (some 20)⟩]

/-- Sample candidates where no record has two valid dates. -/
def sampleCandsInvalid : List (RawCandidate Nat) :=
  [⟨1, 11, none, some (some 150)⟩,
   ⟨2, 22, some none, some (some 150)⟩,
   ⟨3, 33, some (some 50), none⟩,
   ⟨4, 44, some (some 50), some none⟩]

/-- A line item whose stored total cost is `"300.00"`. -/
def sampleItemA : Item := ⟨some ⟨some 0, some 0, none, none, none, none, some "300.00"⟩⟩

/-- A line item whose stored total cost is `"45.00"`. -/
def sampleItemB : Item := ⟨some ⟨some 0, some 0, none, none, none, none, some "45.00"⟩⟩

/-- An item object that lacks a `values` object entirely. -/
def sampleItemNoValues : Item := ⟨none⟩

/-- Attributes of a sample Equipment Rental record: pkey `RENT-001`, two line
items, two associated assets and a filled address/client bundle. -/
def sampleAttrs : Attributes :=
  { pkey := some "RENT-001"
    cf_list_equipment_to_be := some (some [sampleItemA, sampleItemB])
    cf_available_equipment := some ["A1", "A2"]
    cf_rental_period_start := JsValue.str "2024-01-01"
    cf_rental_period_end := JsValue.str "2024-01-07"
    cf_client_project_name := JsValue.str "ACME"
    cf_address_line1 := JsValue.str "1 Main St"
    cf_address_line2 := JsValue.undefined
    cf_address_city := JsValue.str "Springfield"
    cf_address_state := JsValue.str "IL"
    cf_address_zip := JsValue.str "62704"
    cf_address_country := JsValue.str "US" }

/-- A sample Equipment Rental record. -/
def sampleRec : RecordData := ⟨"R1", sampleAttrs, ⟨some "T1", some "S1"⟩⟩

/-- The sample record with an equipment list containing an item that lacks a
`values` object. -/
def sampleRecNoValues : RecordData :=
  ⟨"R1", { sampleAttrs with cf_list_equipment_to_be := some (some [sampleItemA, sampleItemNoValues]) },
   ⟨some "T1", some "S1"⟩⟩

/-- The sample record with an empty equipment list. -/
def sampleRecEmptyList : RecordData :=
  ⟨"R1", { sampleAttrs with cf_list_equipment_to_be := some (some []) }, ⟨some "T1", some "S1"⟩⟩

/-- The sample record with a pkey that does not contain `"RENT"`. -/
def sampleRecNoRent : RecordData :=
  ⟨"R1", { sampleAttrs with pkey := some "EQ-001" }, ⟨some "T1", some "S1"⟩⟩

/-- Type-name resolution of the sample store: `T1` is `Equipment Rental`,
`T2` is `Component Record`. -/
def sampleTypeNames : String → Option String :=
  fun t => if t = "T1" then some "Equipment Rental"
    else if t = "T2" then some "Component Record" else none

/-- Step-text resolution of the sample store: `S1` is `Shipment Preparation`,
`S2` is `Equipment On Hold`. -/
def sampleStepTexts : String → Option String :=
  fun s => if s = "S1" then some "Shipment Preparation"
    else if s = "S2" then some "Equipment On Hold" else none

/-- The sample record without a pkey attribute. -/
def sampleRecNoPkey : RecordData :=
  ⟨"R1", { sampleAttrs with pkey := none }, ⟨some "T1", some "S1"⟩⟩

/-- The sample record without a status relationship. -/
def sampleRecNoStatus : RecordData := ⟨"R1", sampleAttrs, ⟨some "T1", none⟩⟩

/-- The sample record with a type id the store cannot resolve. -/
def sampleRecUnknownType : RecordData := ⟨"R1", sampleAttrs, ⟨some "T9", some "S1"⟩⟩

/-- The sample record with a status id the store cannot resolve. -/
def sampleRecUnknownStep : RecordData := ⟨"R1", sampleAttrs, ⟨some "T1", some "S9"⟩⟩

/-- A sample Component Record (note: no status relationship at all). -/
def sampleComponentRec : RecordData := ⟨"C1", sampleAttrs, ⟨some "T2", none⟩⟩

/-- A sample environment, parametrized by the record the fetch returns;
all writes succeed. -/
def sampleEnvFor (r : RecordData) : Env :=
  ⟨some r, sampleTypeNames, sampleStepTexts, fun _ => none⟩

/-- A sample environment whose writes all succeed. -/
def sampleEnv : Env := ⟨some sampleRec, sampleTypeNames, sampleStepTexts, fun _ => none⟩

/-- A sample environment whose record fetch fails. -/
def sampleEnvNoRecord : Env := ⟨none, sampleTypeNames, sampleStepTexts, fun _ => none⟩

/-- A sample environment in which every write to target `A2` fails with body
`boom`, and all other writes succeed. -/
def sampleEnvBadA2 : Env :=
  ⟨some sampleRec, sampleTypeNames, sampleStepTexts,
   fun t => if t = "A2" then some "boom" else none⟩

end EquipmentRental

namespace EquipmentRental

/-- The head of a stable sort of a nonempty list is a member that the order
relates to every member.  This is the `sort(...)[0]` idiom of
`findRelevantRentalRecord`. -/
theorem head_insertionSort_best {α : Type} (r : α → α → Prop) [DecidableRel r] [IsTotal α r]
    [IsTrans α r] (l : List α) (hne : l ≠ []) :
    ∃ c, (List.insertionSort r l).head? = some c ∧ c ∈ l ∧ ∀ x ∈ l, r c x := by
  cases h : List.insertionSort r l with
  | nil =>
    exfalso
    have hp := List.perm_insertionSort r l
    rw [h] at hp
    exact hne hp.symm.eq_nil
  | cons c t =>
    have hsorted : List.Sorted r (c :: t) := by
      have hs := List.sorted_insertionSort r l
      rwa [h] at hs
    have hmemc : c ∈ l := by
      have hc : c ∈ List.insertionSort r l := by
        rw [h]
        exact List.mem_cons_self c t
      exact (List.perm_insertionSort r l).mem_iff.mp hc
    refine ⟨c, rfl, hmemc, fun x hx => ?_⟩
    have hx' : x ∈ c :: t := by
      rw [← h]
      exact (List.perm_insertionSort r l).mem_iff.mpr hx
    rcases List.mem_cons.mp hx' with rfl | hxt
    · exact (total_of r x x).elim id id
    · exact List.rel_of_sorted_cons hsorted x hxt

/-- A candidate without two valid dates is discarded by the parse step. -/
theorem parseDated_eq_none {α : Type} (r : RawCandidate α) (h : hasValidDates r = false) :
    parseDated r = none := by
  unfold hasValidDates at h
  unfold parseDated
  rcases hs : r.startRaw with _ | _ | s <;> rcases he : r.endRaw with _ | _ | e <;>
    simp_all

/-- A successful parse means both dates were valid, and the dated record keeps
the candidate's attributes. -/
theorem parseDated_some {α : Type} {r : RawCandidate α} {c : DatedRecord α}
    (h : parseDated r = some c) : hasValidDates r = true ∧ c.attributes = r.attributes := by
  unfold parseDated at h
  unfold hasValidDates
  rcases hs : r.startRaw with _ | _ | s <;> rcases he : r.endRaw with _ | _ | e <;>
    simp_all
  rw [← h]

/-- Every surviving dated record stems from a candidate with two valid dates
and carries that candidate's attributes. -/
theorem mem_potentialRecords {α : Type} {rs : List (RawCandidate α)} {c : DatedRecord α}
    (h : c ∈ potentialRecords rs) :
    ∃ r ∈ rs, hasValidDates r = true ∧ c.attributes = r.attributes := by
  obtain ⟨r, hr, hpr⟩ := List.mem_filterMap.mp h
  obtain ⟨h1, h2⟩ := parseDated_some hpr
  exact ⟨r, hr, h1, h2⟩

/-- With no active and no future candidate the selector returns `null`. -/
theorem find_eq_none_of_no_active_future {α : Type} (rs : List (RawCandidate α)) (now : Int)
    (ha : activeRecords rs now = []) (hf : futureRecords rs now = []) :
    findRelevantRentalRecord rs now = none := by
  simp [findRelevantRentalRecord, ha, hf]

/-- When active records exist, the selector returns the attributes of a best
active record under the active comparator order. -/
theorem find_of_active_ne {α : Type} (rs : List (RawCandidate α)) (now : Int)
    (hne : activeRecords rs now ≠ []) :
    ∃ c ∈ activeRecords rs now,
      (∀ x ∈ activeRecords rs now, activeOrder c x) ∧
      findRelevantRentalRecord rs now = some c.attributes := by
  obtain ⟨c, hhead, hmem, hbest⟩ :=
    head_insertionSort_best activeOrder (activeRecords rs now) hne
  have hrs : rs.isEmpty = false := by
    rcases rs with _ | ⟨r, rs'⟩
    · exact absurd rfl hne
    · rfl
  have hae : (activeRecords rs now).isEmpty = false := List.isEmpty_eq_false.mpr hne
  refine ⟨c, hmem, hbest, ?_⟩
  simp only [findRelevantRentalRecord, hrs, hae, Bool.false_eq_true, if_false, Bool.not_false,
    if_true]
  rw [hhead]
  rfl

/-- When no active but some future records exist, the selector returns the
attributes of a best future record under the future comparator order. -/
theorem find_of_future_ne {α : Type} (rs : List (RawCandidate α)) (now : Int)
    (ha : activeRecords rs now = []) (hne : futureRecords rs now ≠ []) :
    ∃ c ∈ futureRecords rs now,
      (∀ x ∈ futureRecords rs now, futureOrder c x) ∧
      findRelevantRentalRecord rs now = some c.attributes := by
  obtain ⟨c, hhead, hmem, hbest⟩ :=
    head_insertionSort_best futureOrder (futureRecords rs now) hne
  have hrs : rs.isEmpty = false := by
    rcases rs with _ | ⟨r, rs'⟩
    · exact absurd rfl hne
    · rfl
  have hfe : (futureRecords rs now).isEmpty = false := List.isEmpty_eq_false.mpr hne
  refine ⟨c, hmem, hbest, ?_⟩
  simp only [findRelevantRentalRecord, hrs, ha, hfe, Bool.false_eq_true, if_false, Bool.not_false,
    if_true, List.isEmpty_nil, Bool.not_true]
  rw [hhead]
  rfl

end EquipmentRental

namespace EquipmentRental

/-- C2: the per-item cost computed in `_handleOnHold` equals the reference
definition: inclusive duration (`start = end` gives `durationDays = 1`), skip
on invalid dates or non-positive duration, strict monthly/weekly/daily tier
priority, missing or non-numeric fields coerced to `0`, and the result
formatted to exactly two decimal places (all-zero rates yield `"0.00"`). -/
theorem onHold_item_cost_matches_reference :
    (∀ v : ItemValues, processItemValues v = specItemUpdate v)
    ∧ (∀ s : Int, specDurationDays s s = 1)
    ∧ toFixed2 0 = "0.00" := by
  refine ⟨fun v => ?_, fun s => ?_, ?_⟩
  · unfold processItemValues specItemUpdate specTierCost specDurationDays
    cases v.cf_rental_period_start <;> cases v.cf_rental_period_end <;> rfl
  · unfold specDurationDays jsRound
    rw [sub_self]
    with_unfolding_all rfl
  · with_unfolding_all rfl

/-- C1: for every candidate list and every `now`, `findRelevantRentalRecord`
returns, when some valid-dated candidate is active, an active candidate with
the latest start date (ties broken by the latest end date) - never a future
one; otherwise, when some valid-dated candidate is future, a future candidate
with the globally minimal start date; otherwise `null`. -/
theorem selector_priority {α : Type} (rs : List (RawCandidate α)) (now : Int) :
    (activeRecords rs now ≠ [] →
      ∃ c ∈ activeRecords rs now,
        findRelevantRentalRecord rs now = some c.attributes ∧
        ∀ x ∈ activeRecords rs now,
          x.startDate < c.startDate ∨ (x.startDate = c.startDate ∧ x.endDate ≤ c.endDate))
    ∧ (activeRecords rs now = [] → futureRecords rs now ≠ [] →
      ∃ c ∈ futureRecords rs now,
        findRelevantRentalRecord rs now = some c.attributes ∧
        ∀ x ∈ futureRecords rs now, c.startDate ≤ x.startDate)
    ∧ (activeRecords rs now = [] → futureRecords rs now = [] →
      findRelevantRentalRecord rs now = none) := by
  refine ⟨fun hne => ?_, fun ha hne => ?_,
    fun ha hf => find_eq_none_of_no_active_future rs now ha hf⟩
  · obtain ⟨c, hmem, hbest, hfind⟩ := find_of_active_ne rs now hne
    refine ⟨c, hmem, hfind, fun x hx => ?_⟩
    have hcx := hbest x hx
    unfold activeOrder at hcx
    by_cases hsx : x.startDate = c.startDate
    · right
      rw [if_pos hsx] at hcx
      exact ⟨hsx, hcx⟩
    · left
      rw [if_neg hsx] at hcx
      omega
  · obtain ⟨c, hmem, hbest, hfind⟩ := find_of_future_ne rs now ha hne
    exact ⟨c, hmem, hfind, hbest⟩

/-- Witness for C1: at time 100, the sample list with two active records
yields the active one that started latest, an all-future list yields the
soonest-starting record, and an all-past list yields `null`. -/
theorem selector_priority_witness :
    (∃ c ∈ activeRecords sampleCandsActive 100,
        findRelevantRentalRecord sampleCandsActive 100 = some c.attributes ∧
        ∀ x ∈ activeRecords sampleCandsActive 100,
          x.startDate < c.startDate ∨ (x.startDate = c.startDate ∧ x.endDate ≤ c.endDate))
    ∧ (∃ c ∈ futureRecords sampleCandsFuture 100,
        findRelevantRentalRecord sampleCandsFuture 100 = some c.attributes ∧
        ∀ x ∈ futureRecords sampleCandsFuture 100, c.startDate ≤ x.startDate)
    ∧ findRelevantRentalRecord sampleCandsPast 100 = none :=
  ⟨(selector_priority sampleCandsActive 100).1 (by decide),
   (selector_priority sampleCandsFuture 100).2.1 (by decide) (by decide),
   (selector_priority sampleCandsPast 100).2.2 (by decide) (by decide)⟩

/-- C6: candidates with a malformed or missing start or end date are excluded
from selection regardless of their other fields (anything returned stems from
a valid-dated candidate), and a list with no valid-dated candidate yields
`null` rather than an error. -/
theorem selector_excludes_invalid {α : Type} (rs : List (RawCandidate α)) (now : Int) :
    ((∀ r ∈ rs, hasValidDates r = false) → findRelevantRentalRecord rs now = none)
    ∧ ∀ a, findRelevantRentalRecord rs now = some a →
        ∃ r ∈ rs, hasValidDates r = true ∧ a = r.attributes := by
  constructor
  · intro h
    have hp : potentialRecords rs = [] :=
      List.filterMap_eq_nil_iff.mpr fun r hr => parseDated_eq_none r (h r hr)
    have ha : activeRecords rs now = [] := by
      unfold activeRecords
      rw [hp]
      rfl
    have hf : futureRecords rs now = [] := by
      unfold futureRecords
      rw [hp]
      rfl
    exact find_eq_none_of_no_active_future rs now ha hf
  · intro a hfind
    by_cases ha : activeRecords rs now = []
    · by_cases hf : futureRecords rs now = []
      · rw [find_eq_none_of_no_active_future rs now ha hf] at hfind
        exact Option.noConfusion hfind
      · obtain ⟨c, hmem, _, hfind'⟩ := find_of_future_ne rs now ha hf
        have hceq : c.attributes = a := Option.some.inj (hfind'.symm.trans hfind)
        have hcp : c ∈ potentialRecords rs := (List.mem_filter.mp hmem).1
        obtain ⟨r, hr, hv, hattr⟩ := mem_potentialRecords hcp
        exact ⟨r, hr, hv, hceq ▸ hattr⟩
    · obtain ⟨c, hmem, _, hfind'⟩ := find_of_active_ne rs now ha
      have hceq : c.attributes = a := Option.some.inj (hfind'.symm.trans hfind)
      have hcp : c ∈ potentialRecords rs := (List.mem_filter.mp hmem).1
      obtain ⟨r, hr, hv, hattr⟩ := mem_potentialRecords hcp
      exact ⟨r, hr, hv, hceq ▸ hattr⟩

/-- Witness for C6: an all-invalid sample list yields `null`, and the value
selected from the mixed sample list stems from a valid-dated candidate. -/
theorem selector_excludes_invalid_witness :
    findRelevantRentalRecord sampleCandsInvalid 100 = none
    ∧ ∃ r ∈ sampleCandsActive, hasValidDates r = true ∧ (22 : Nat) = r.attributes :=
  ⟨(selector_excludes_invalid sampleCandsInvalid 100).1 (by decide),
   (selector_excludes_invalid sampleCandsActive 100).2 22 (by decide)⟩

/-- When every write succeeds, the sequential run performs all calls in order
and raises nothing. -/
theorem runUpdates_ok (env : Env) (calls : List UpdateCall)
    (h : ∀ c ∈ calls, env.writeError c.target = none) :
    runUpdates env calls = (calls, none) := by
  induction calls with
  | nil => rfl
  | cons c rest ih =>
    have hc := h c (List.mem_cons_self c rest)
    have hrest := ih fun q hq => h q (List.mem_cons_of_mem c hq)
    unfold runUpdates
    rw [hc, hrest]

/-- A failing write stops the sequential run: the successful prefix stays
performed (no rollback) and the raised error carries the remote body. -/
theorem runUpdates_fail (env : Env) :
    ∀ (pre : List UpdateCall) (c : UpdateCall) (post : List UpdateCall) (body : String),
      (∀ q ∈ pre, env.writeError q.target = none) →
      env.writeError c.target = some body →
      runUpdates env (pre ++ c :: post) = (pre, some ("Update failed: " ++ body)) := by
  intro pre
  induction pre with
  | nil =>
    intro c post body _ hc
    rw [List.nil_append]
    simp only [runUpdates]
    rw [hc]
  | cons p pre' ih =>
    intro c post body hpre hc
    have hp := hpre p (List.mem_cons_self p pre')
    have hrest := ih c post body (fun q hq => hpre q (List.mem_cons_of_mem p hq)) hc
    rw [List.cons_append]
    simp only [runUpdates]
    rw [hp, hrest]

/-- When every item has a `values` object, the On Hold loop completes and
rewrites each item's values through the per-item cost computation. -/
theorem computeOnHoldItems_ok (items : List Item) (h : ∀ it ∈ items, it.values.isSome) :
    computeOnHoldItems items =
      Except.ok (items.map fun it => ⟨it.values.map processItemValues⟩) := by
  induction items with
  | nil => rfl
  | cons it rest ih =>
    obtain ⟨v, hv⟩ := Option.isSome_iff_exists.mp (h it (List.mem_cons_self it rest))
    have hrest := ih fun q hq => h q (List.mem_cons_of_mem it hq)
    unfold computeOnHoldItems
    rw [hv, hrest]
    simp [hv]

/-- An item without a `values` object makes the On Hold loop raise. -/
theorem computeOnHoldItems_error (items : List Item) (h : ∃ it ∈ items, it.values = none) :
    computeOnHoldItems items = Except.error typeErrorUndefined := by
  induction items with
  | nil =>
    obtain ⟨it, hmem, _⟩ := h
    exact absurd hmem (List.not_mem_nil it)
  | cons it rest ih =>
    unfold computeOnHoldItems
    cases hv : it.values with
    | none => rfl
    | some v =>
      obtain ⟨b, hbmem, hbval⟩ := h
      rcases List.mem_cons.mp hbmem with rfl | hbrest
      · rw [hv] at hbval
        exact Option.noConfusion hbval
      · rw [ih ⟨b, hbrest, hbval⟩]

/-- When every item has a `values` object, the shipment `reduce` computes the
reference aggregate on top of its accumulator. -/
theorem foldlM_sumStep_ok (items : List Item) :
    ∀ a : ℚ, (∀ it ∈ items, it.values.isSome) →
      List.foldlM sumStep a items = Except.ok (a + specAggregateCost items) := by
  induction items with
  | nil =>
    intro a _
    simp only [List.foldlM, specAggregateCost, List.filterMap_nil, List.map_nil, List.sum_nil,
      add_zero]
    rfl
  | cons it rest ih =>
    intro a h
    obtain ⟨v, hv⟩ := Option.isSome_iff_exists.mp (h it (List.mem_cons_self it rest))
    have hstep : sumStep a it = Except.ok (a + parsedOr0 v.cf_total_cost) := by
      unfold sumStep
      rw [hv]
    have hagg : specAggregateCost (it :: rest) =
        parsedOr0 v.cf_total_cost + specAggregateCost rest := by
      unfold specAggregateCost
      simp [List.filterMap_cons, hv]
    simp only [List.foldlM]
    rw [hstep]
    show List.foldlM sumStep (a + parsedOr0 v.cf_total_cost) rest = _
    rw [ih (a + parsedOr0 v.cf_total_cost) fun q hq => h q (List.mem_cons_of_mem it hq), hagg]
    rw [add_assoc]

/-- An item without a `values` object makes the shipment `reduce` raise. -/
theorem foldlM_sumStep_error (items : List Item) :
    ∀ a : ℚ, (∃ it ∈ items, it.values = none) →
      List.foldlM sumStep a items = Except.error typeErrorUndefined := by
  induction items with
  | nil =>
    intro a h
    obtain ⟨it, hmem, _⟩ := h
    exact absurd hmem (List.not_mem_nil it)
  | cons it rest ih =>
    intro a h
    simp only [List.foldlM]
    cases hv : it.values with
    | none =>
      have hstep : sumStep a it = Except.error typeErrorUndefined := by
        unfold sumStep
        rw [hv]
      rw [hstep]
      rfl
    | some v =>
      obtain ⟨b, hbmem, hbval⟩ := h
      rcases List.mem_cons.mp hbmem with rfl | hbrest
      · rw [hv] at hbval
        exact Option.noConfusion hbval
      · have hstep : sumStep a it = Except.ok (a + parsedOr0 v.cf_total_cost) := by
          unfold sumStep
          rw [hv]
        rw [hstep]
        show List.foldlM sumStep (a + parsedOr0 v.cf_total_cost) rest = _
        exact ih (a + parsedOr0 v.cf_total_cost) ⟨b, hbrest, hbval⟩

/-- The dispatcher routes an Equipment Rental record in the Shipment
Preparation stage (with a truthy pkey containing `RENT`) to the shipment
handler. -/
theorem dispatch_to_shipment (env : Env) (recordId : String) (rec : RecordData)
    (tid sid p : String)
    (hrec : env.recordData = some rec)
    (htid : rec.relationships.typeId = some tid)
    (hname : env.typeNameOf tid = some "Equipment Rental")
    (hpkey : rec.attributes.pkey = some p)
    (hpne : p ≠ "")
    (hrent : strContains p "RENT" = true)
    (hsid : rec.relationships.statusId = some sid)
    (hstep : env.stepTextOf sid = some "Shipment Preparation") :
    processRecordUpdate env recordId = handleShipmentPreparation env rec := by
  simp only [processRecordUpdate, hrec, htid, hname, hpkey, hsid, hstep, hrent, Bool.not_true,
    Bool.false_eq_true, if_false, if_neg hpne]
  simp

/-- C3: an Equipment Rental record dispatched in the Shipment Preparation
stage with a parseable line-item list gets one write of the aggregate (the sum
of all items' stored cost fields re-parsed as numbers, non-numeric treated as
`0`, formatted to two decimal places), followed by one write of the fixed
rental/address/client bundle - including the back-reference - to every asset
id of `cf_available_equipment`, one at a time in declaration order. -/
theorem shipment_preparation_effects (env : Env) (recordId : String) (rec : RecordData)
    (tid sid p : String) (items : List Item)
    (hrec : env.recordData = some rec)
    (htid : rec.relationships.typeId = some tid)
    (hname : env.typeNameOf tid = some "Equipment Rental")
    (hpkey : rec.attributes.pkey = some p)
    (hpne : p ≠ "")
    (hrent : strContains p "RENT" = true)
    (hsid : rec.relationships.statusId = some sid)
    (hstep : env.stepTextOf sid = some "Shipment Preparation")
    (hlist : rec.attributes.cf_list_equipment_to_be = some (some items))
    (hvals : ∀ it ∈ items, it.values.isSome)
    (hw : ∀ t, env.writeError t = none) :
    processRecordUpdate env recordId =
      (⟨rec.id, [("cf_total_equipment_rental_cost",
          JsValue.str (toFixed2 (specAggregateCost items)))]⟩ ::
        (rec.attributes.cf_available_equipment.getD []).map
          (fun assetId => ⟨assetId, shipmentPayload rec⟩),
       none)
    ∧ shipmentPayload rec =
      [("cf_rental_period_start", rec.attributes.cf_rental_period_start),
       ("cf_rental_period_end", rec.attributes.cf_rental_period_end),
       ("cf_client_name", rec.attributes.cf_client_project_name),
       ("cf_equipment_rental_record", JsValue.str p),
       ("cf_address_line1", rec.attributes.cf_address_line1),
       ("cf_address_line2", rec.attributes.cf_address_line2),
       ("cf_address_city", rec.attributes.cf_address_city),
       ("cf_address_state", rec.attributes.cf_address_state),
       ("cf_address_zip", rec.attributes.cf_address_zip),
       ("cf_address_country", rec.attributes.cf_address_country)] := by
  constructor
  · rw [dispatch_to_shipment env recordId rec tid sid p hrec htid hname hpkey hpne hrent hsid
      hstep]
    simp only [handleShipmentPreparation, hlist, overallTotalCost]
    rw [foldlM_sumStep_ok items 0 hvals, zero_add]
    exact runUpdates_ok env _ (fun c _ => hw c.target)
  · unfold shipmentPayload
    rw [hpkey]
    rfl

/-- Witness for C3: on the sample rental (pkey `RENT-001`, items with stored
costs `300.00` and `45.00`, assets `A1` then `A2`), the run writes the
aggregate to `R1` and then the bundle to `A1` and `A2`, in order. -/
theorem shipment_preparation_effects_witness :
    processRecordUpdate sampleEnv "R1" =
      (⟨sampleRec.id, [("cf_total_equipment_rental_cost",
          JsValue.str (toFixed2 (specAggregateCost [sampleItemA, sampleItemB])))]⟩ ::
        (sampleRec.attributes.cf_available_equipment.getD []).map
          (fun assetId => ⟨assetId, shipmentPayload sampleRec⟩),
       none)
    ∧ shipmentPayload sampleRec =
      [("cf_rental_period_start", sampleRec.attributes.cf_rental_period_start),
       ("cf_rental_period_end", sampleRec.attributes.cf_rental_period_end),
       ("cf_client_name", sampleRec.attributes.cf_client_project_name),
       ("cf_equipment_rental_record", JsValue.str "RENT-001"),
       ("cf_address_line1", sampleRec.attributes.cf_address_line1),
       ("cf_address_line2", sampleRec.attributes.cf_address_line2),
       ("cf_address_city", sampleRec.attributes.cf_address_city),
       ("cf_address_state", sampleRec.attributes.cf_address_state),
       ("cf_address_zip", sampleRec.attributes.cf_address_zip),
       ("cf_address_country", sampleRec.attributes.cf_address_country)] :=
  shipment_preparation_effects sampleEnv "R1" sampleRec "T1" "S1" "RENT-001"
    [sampleItemA, sampleItemB] rfl rfl (by decide) rfl (by decide) (by decide) rfl (by decide)
    rfl (by decide) (fun _ => rfl)

/-- C4: an Equipment Rental record whose pkey does not contain `RENT` (or
whose pkey or status relationship is missing) leads to no action at all - no
update call and no error - whatever the resolved workflow-step text is. -/
theorem rental_pkey_guard (env : Env) (recordId : String) (rec : RecordData) (tid : String)
    (hrec : env.recordData = some rec)
    (htid : rec.relationships.typeId = some tid)
    (hname : env.typeNameOf tid = some "Equipment Rental") :
    (∀ p, rec.attributes.pkey = some p → strContains p "RENT" = false →
      processRecordUpdate env recordId = ([], none))
    ∧ (rec.attributes.pkey = none → processRecordUpdate env recordId = ([], none))
    ∧ (rec.relationships.statusId = none → processRecordUpdate env recordId = ([], none)) := by
  refine ⟨fun p hp hr => ?_, fun hp => ?_, fun hs => ?_⟩
  · cases hsid : rec.relationships.statusId with
    | none =>
      simp only [processRecordUpdate, hrec, htid, hname, hp, hsid]
      simp
    | some sid =>
      by_cases hpe : p = ""
      · simp only [processRecordUpdate, hrec, htid, hname, hp, hsid, if_pos hpe]
        simp
      · simp only [processRecordUpdate, hrec, htid, hname, hp, hsid, if_neg hpe, hr,
          Bool.not_false, if_true]
        simp
  · cases hsid : rec.relationships.statusId with
    | none =>
      simp only [processRecordUpdate, hrec, htid, hname, hp, hsid]
      simp
    | some sid =>
      simp only [processRecordUpdate, hrec, htid, hname, hp, hsid]
      simp
  · simp only [processRecordUpdate, hrec, htid, hname, hs]
    cases hp : rec.attributes.pkey <;> simp

/-- Witness for C4: the sample record with pkey `EQ-001` (and also the samples
with a missing pkey or missing status) produce no calls and no error even
though the step text resolves to `Shipment Preparation`. -/
theorem rental_pkey_guard_witness :
    processRecordUpdate (sampleEnvFor sampleRecNoRent) "R1" = ([], none)
    ∧ processRecordUpdate (sampleEnvFor sampleRecNoPkey) "R1" = ([], none)
    ∧ processRecordUpdate (sampleEnvFor sampleRecNoStatus) "R1" = ([], none) :=
  ⟨(rental_pkey_guard (sampleEnvFor sampleRecNoRent) "R1" sampleRecNoRent "T1" rfl rfl
      (by decide)).1 "EQ-001" rfl (by decide),
   (rental_pkey_guard (sampleEnvFor sampleRecNoPkey) "R1" sampleRecNoPkey "T1" rfl rfl
      (by decide)).2.1 rfl,
   (rental_pkey_guard (sampleEnvFor sampleRecNoStatus) "R1" sampleRecNoStatus "T1" rfl rfl
      (by decide)).2.2 rfl⟩

/-- C5: a record whose resolved type name is `Asset Record` or
`Component Record` always routes to the clear-rental-fields operation,
whatever its status, and that operation issues one update setting every
rental/address field of the bundle to `null`. -/
theorem asset_component_clears_fields (env : Env) (recordId : String) (rec : RecordData)
    (tid name : String)
    (hrec : env.recordData = some rec)
    (htid : rec.relationships.typeId = some tid)
    (hname : env.typeNameOf tid = some name)
    (hn : name = "Asset Record" ∨ name = "Component Record") :
    processRecordUpdate env recordId = handleAssetComponentUpdate env recordId
    ∧ handleAssetComponentUpdate env recordId = runUpdates env [⟨recordId, clearPayload⟩]
    ∧ clearPayload.map Prod.fst =
      ["cf_rental_period_start", "cf_rental_period_end", "cf_client_name",
       "cf_equipment_rental_record", "cf_address_line1", "cf_address_line2", "cf_address_city",
       "cf_address_state", "cf_address_zip", "cf_address_country"]
    ∧ ∀ kv ∈ clearPayload, kv.2 = JsValue.null := by
  refine ⟨?_, rfl, rfl, by decide⟩
  simp only [processRecordUpdate, hrec, htid, hname, if_pos hn]

/-- Witness for C5: the sample Component Record (which has no status
relationship at all) routes to clearing, whose single patch maps the ten
bundle fields to `null`. -/
theorem asset_component_clears_fields_witness :
    processRecordUpdate (sampleEnvFor sampleComponentRec) "C1" =
      handleAssetComponentUpdate (sampleEnvFor sampleComponentRec) "C1"
    ∧ handleAssetComponentUpdate (sampleEnvFor sampleComponentRec) "C1" =
      runUpdates (sampleEnvFor sampleComponentRec) [⟨"C1", clearPayload⟩]
    ∧ clearPayload.map Prod.fst =
      ["cf_rental_period_start", "cf_rental_period_end", "cf_client_name",
       "cf_equipment_rental_record", "cf_address_line1", "cf_address_line2", "cf_address_city",
       "cf_address_state", "cf_address_zip", "cf_address_country"]
    ∧ ∀ kv ∈ clearPayload, kv.2 = JsValue.null :=
  asset_component_clears_fields (sampleEnvFor sampleComponentRec) "C1" sampleComponentRec
    "T2" "Component Record" rfl rfl (by decide) (Or.inr rfl)

/-- C7: a non-success read (record fetch, record-type search, workflow-step
fetch) makes the dependent branch return with no action and no error; a
non-success write raises `Update failed: <body>` that stops the sequential run
with the already-performed writes kept (no rollback); and the dispatcher
passes a handler's outcome through unchanged. -/
theorem read_write_failure_asymmetry (env : Env) (recordId : String) :
    (env.recordData = none → processRecordUpdate env recordId = ([], none))
    ∧ (∀ rec tid, env.recordData = some rec → rec.relationships.typeId = some tid →
        env.typeNameOf tid = none → processRecordUpdate env recordId = ([], none))
    ∧ (∀ rec tid p sid, env.recordData = some rec → rec.relationships.typeId = some tid →
        env.typeNameOf tid = some "Equipment Rental" → rec.attributes.pkey = some p →
        rec.relationships.statusId = some sid → env.stepTextOf sid = none →
        processRecordUpdate env recordId = ([], none))
    ∧ (∀ pre c post body, (∀ q ∈ pre, env.writeError q.target = none) →
        env.writeError c.target = some body →
        runUpdates env (pre ++ c :: post) = (pre, some ("Update failed: " ++ body)))
    ∧ (∀ rec tid sid p, env.recordData = some rec → rec.relationships.typeId = some tid →
        env.typeNameOf tid = some "Equipment Rental" → rec.attributes.pkey = some p →
        p ≠ "" → strContains p "RENT" = true → rec.relationships.statusId = some sid →
        env.stepTextOf sid = some "Shipment Preparation" →
        processRecordUpdate env recordId = handleShipmentPreparation env rec) := by
  refine ⟨fun h => ?_, fun rec tid hrec htid hn => ?_, fun rec tid p sid hrec htid hn hp hs hst => ?_,
    runUpdates_fail env,
    fun rec tid sid p hrec htid hn hp hpne hrent hsid hstep =>
      dispatch_to_shipment env recordId rec tid sid p hrec htid hn hp hpne hrent hsid hstep⟩
  · simp [processRecordUpdate, h]
  · simp [processRecordUpdate, hrec, htid, hn]
  · by_cases hpe : p = ""
    · simp only [processRecordUpdate, hrec, htid, hn, hp, hs, if_pos hpe]
      simp
    · by_cases hr : strContains p "RENT" = true
      · simp only [processRecordUpdate, hrec, htid, hn, hp, hs, if_neg hpe, hr, hst,
          Bool.not_true, Bool.false_eq_true, if_false]
        simp
      · have hr' : strContains p "RENT" = false := Bool.eq_false_iff.mpr hr
        simp only [processRecordUpdate, hrec, htid, hn, hp, hs, if_neg hpe, hr', Bool.not_false,
          if_true]
        simp

/-- Witness for C7: a failed record fetch and an unresolvable type id or step
id are silent no-ops; with writes to `A2` failing, a clear-payload run on
`[A1, A2, A1]` performs only the `A1` write and raises the body `boom`; and
the sample shipment dispatch equals its handler's outcome. -/
theorem read_write_failure_asymmetry_witness :
    processRecordUpdate sampleEnvNoRecord "R1" = ([], none)
    ∧ processRecordUpdate (sampleEnvFor sampleRecUnknownType) "R1" = ([], none)
    ∧ processRecordUpdate (sampleEnvFor sampleRecUnknownStep) "R1" = ([], none)
    ∧ runUpdates sampleEnvBadA2
        ([⟨"A1", clearPayload⟩] ++ ⟨"A2", clearPayload⟩ :: [⟨"A1", clearPayload⟩]) =
      ([⟨"A1", clearPayload⟩], some ("Update failed: " ++ "boom"))
    ∧ processRecordUpdate sampleEnvBadA2 "R1" =
        handleShipmentPreparation sampleEnvBadA2 sampleRec :=
  ⟨(read_write_failure_asymmetry sampleEnvNoRecord "R1").1 rfl,
   (read_write_failure_asymmetry (sampleEnvFor sampleRecUnknownType) "R1").2.1
     sampleRecUnknownType "T9" rfl rfl (by decide),
   (read_write_failure_asymmetry (sampleEnvFor sampleRecUnknownStep) "R1").2.2.1
     sampleRecUnknownStep "T1" "RENT-001" "S9" rfl rfl (by decide) rfl rfl (by decide),
   (read_write_failure_asymmetry sampleEnvBadA2 "R1").2.2.2.1
     [⟨"A1", clearPayload⟩] ⟨"A2", clearPayload⟩ [⟨"A1", clearPayload⟩] "boom"
     (by decide) (by decide),
   (read_write_failure_asymmetry sampleEnvBadA2 "R1").2.2.2.2
     sampleRec "T1" "S1" "RENT-001" rfl rfl (by decide) rfl (by decide) (by decide) rfl
     (by decide)⟩

/-- C8: in the patch as sent to the remote store, entries whose value is
`undefined` are dropped while all other entries - explicitly `null` ones
included - are preserved. -/
theorem update_patch_undefined_dropped (t : String) (attrs : List (String × JsValue))
    (k : String) (v : JsValue) :
    (k, v) ∈ sentBody ⟨t, attrs⟩ ↔ (k, v) ∈ attrs ∧ v ≠ JsValue.undefined := by
  unfold sentBody filterUndefinedEntries
  rw [List.mem_filter]
  simp

/-- Witness for C8: in a patch with a `null` entry and an `undefined` entry,
the `null` entry is sent and the `undefined` entry is not. -/
theorem update_patch_undefined_dropped_witness :
    (("a", JsValue.null) ∈ sentBody ⟨"R1", [("a", JsValue.null), ("b", JsValue.undefined)]⟩
      ↔ ("a", JsValue.null) ∈ [("a", JsValue.null), ("b", JsValue.undefined)]
        ∧ JsValue.null ≠ JsValue.undefined)
    ∧ (("b", JsValue.undefined) ∈ sentBody ⟨"R1", [("a", JsValue.null), ("b", JsValue.undefined)]⟩
      ↔ ("b", JsValue.undefined) ∈ [("a", JsValue.null), ("b", JsValue.undefined)]
        ∧ JsValue.undefined ≠ JsValue.undefined) :=
  ⟨update_patch_undefined_dropped "R1" [("a", JsValue.null), ("b", JsValue.undefined)]
     "a" JsValue.null,
   update_patch_undefined_dropped "R1" [("a", JsValue.null), ("b", JsValue.undefined)]
     "b" JsValue.undefined⟩

/-- C9: when the parsed equipment list contains an item without a `values`
object, both the On Hold and the Shipment Preparation handlers raise (property
access on `undefined`) before performing any write, rather than skipping the
item. -/
theorem missing_values_object_raises (env : Env) (rec : RecordData) (items : List Item)
    (hlist : rec.attributes.cf_list_equipment_to_be = some (some items))
    (hbad : ∃ it ∈ items, it.values = none) :
    handleOnHold env rec = ([], some typeErrorUndefined)
    ∧ handleShipmentPreparation env rec = ([], some typeErrorUndefined) := by
  constructor
  · simp only [handleOnHold, hlist]
    rw [computeOnHoldItems_error items hbad]
  · simp only [handleShipmentPreparation, hlist, overallTotalCost]
    rw [foldlM_sumStep_error items 0 hbad]

/-- Witness for C9: on the sample record whose second item lacks a `values`
object, both handlers raise and perform no write. -/
theorem missing_values_object_raises_witness :
    handleOnHold (sampleEnvFor sampleRecNoValues) sampleRecNoValues =
      ([], some typeErrorUndefined)
    ∧ handleShipmentPreparation (sampleEnvFor sampleRecNoValues) sampleRecNoValues =
      ([], some typeErrorUndefined) :=
  missing_values_object_raises (sampleEnvFor sampleRecNoValues) sampleRecNoValues
    [sampleItemA, sampleItemNoValues] rfl (by decide)

/-- C10: with a present, parseable equipment list, `_handleOnHold` issues
exactly one write - to the rental record, patching only the serialized
`cf_list_equipment_to_be` attribute - even when no item's cost changed (for
example an empty list). -/
theorem onHold_single_write_frame (env : Env) (rec : RecordData) (items : List Item)
    (hlist : rec.attributes.cf_list_equipment_to_be = some (some items))
    (hvals : ∀ it ∈ items, it.values.isSome)
    (hw : env.writeError rec.id = none) :
    handleOnHold env rec =
      ([⟨rec.id, [("cf_list_equipment_to_be",
          JsValue.str (serializeItems (items.map fun it => ⟨it.values.map processItemValues⟩)))]⟩],
       none) := by
  simp only [handleOnHold, hlist]
  rw [computeOnHoldItems_ok items hvals]
  exact runUpdates_ok env _ (by
    intro c hc
    rcases List.mem_singleton.mp hc with rfl
    exact hw)

/-- Witness for C10: on the sample record with an empty equipment list, the
handler still issues exactly the one list write. -/
theorem onHold_single_write_frame_witness :
    handleOnHold (sampleEnvFor sampleRecEmptyList) sampleRecEmptyList =
      ([⟨sampleRecEmptyList.id, [("cf_list_equipment_to_be",
          JsValue.str (serializeItems (([] : List Item).map
            fun it => ⟨it.values.map processItemValues⟩)))]⟩],
       none) :=
  onHold_single_write_frame (sampleEnvFor sampleRecEmptyList) sampleRecEmptyList []
    rfl (by decide) rfl

end EquipmentRental
